import Mathlib

/-!
Verification development for the NASA hackathon road-closure impact engine.

The JavaScript source is shallowly embedded in Lean 4:

* JS numbers are modelled as exact rationals (`ℚ`); the JS bitwise
  truncation `| 0` is modelled by `jsOr0` (truncate toward zero, then
  two's-complement wrap to 32 bits, which is the identity on the in-range
  values produced here); `Math.imul`-based hashing is modelled by unsigned
  arithmetic modulo `2^32`, which agrees with the source's signed 32-bit
  intermediate values after the final `>>> 0`.
* `Math.pow` (binary floating point) is kept abstract: the scoring
  pipeline is parameterised by a function `fpow : ℚ → ℚ → ℚ` standing for
  it, since no claim depends on its numeric values.
* The timed callback loop of `runDualPhaseSimulation` is modelled as a
  pure trace function: each animation frame is an elapsed-time sample, a
  phase consumes samples until one reaches its duration, and every
  callback invocation is recorded as an `Event`.

Sources embedded below:
* `computeImpactStats`, `hashId` — impact utilities (src/unnamed/part_001,
  second document).
* `runDualPhaseSimulation` — updated simulation utilities
  (src/unnamed/part_000, third document); the older copy under
  src/react-project differs only in the literal snapshot constants.
* metric rows / optimization score — PostOptimizationResultsPanel
  (src/unnamed/part_002, second document).
* closure rows / impact overview score — PostClosureAnalysisPanel
  (src/react-project/.../components/PostClosureAnalysisPanel.jsx).
* `startSimulation` / `startOptimization` — TrafficClosure_UI
  (src/react-project/.../TrafficClosure_UI.jsx).
-/

/-- JS truncation toward zero of a rational (the integer part of `q`). -/
def jsTruncQ (q : ℚ) : ℤ :=
  if 0 ≤ q then ⌊q⌋ else -⌊-q⌋

/-- JS `| 0`: truncate toward zero and wrap to a signed 32-bit integer. -/
def jsOr0 (q : ℚ) : ℤ :=
  (jsTruncQ q + 2 ^ 31) % 2 ^ 32 - 2 ^ 31

/-- `hashId` from the impact utilities:
`h = Math.imul(31, h) + id.charCodeAt(i) | 0` folded over the string, then
`h >>> 0`.  Signed 32-bit two's-complement steps followed by the final
unsigned reinterpretation are equivalent to working modulo `2^32`
throughout, which is how the fold is written here.  (`Char.toNat` agrees
with `charCodeAt` on all the basic-multilingual-plane characters that
occur in this data.) -/
def hashId (s : String) : ℕ :=
  s.data.foldl (fun h c => (31 * h + c.toNat) % 2 ^ 32) 0

/-- Lower-casing of one character as JS `toLowerCase` acts on ASCII. -/
def lowerChar (c : Char) : Char :=
  if 'A' ≤ c ∧ c ≤ 'Z' then Char.ofNat (c.toNat + 32) else c

/-- Whitespace test used by the model of JS `trim`. -/
def isWsChar (c : Char) : Bool :=
  c = ' ' ∨ c = '\t' ∨ c = '\n' ∨ c = '\r'

/-- Strip leading and trailing whitespace from a character list. -/
def trimChars (l : List Char) : List Char :=
  ((l.dropWhile isWsChar).reverse.dropWhile isWsChar).reverse

/-- `norm` from `computeImpactStats`: `(s || '').toLowerCase().trim()`. -/
def normName (s : Option String) : String :=
  ⟨trimChars (((s.getD ("")).data).map lowerChar)⟩

/-- `baseByType[highway] || 300`: the fixed base-volume lookup table with
default 300 vehicles/hour for an unknown road class. -/
def baseByType (highway : String) : ℤ :=
  if highway = "motorway" then 1800
  else if highway = "trunk" then 1500
  else if highway = "primary" then 1200
  else if highway = "secondary" then 800
  else if highway = "tertiary" then 500
  else if highway = "residential" then 250
  else if highway = "service" then 120
  else 300

/-- The fixed "always extreme" landmark name set. -/
def forceExtremeNames : List String :=
  ["münsterbrücke", "rathausbrücke", "rudolf-brun-brücke", "mühlesteg"]

/-- Centered fluctuation seed: `(hashId(x) % 400) - 200`. -/
def fluctOf (s : String) : ℤ :=
  (hashId s : ℤ) % 400 - 200

/-- Name-keyed volume: `Math.max(40, base + fluct * 0.5 | 0)`. -/
def vphNamed (base : ℤ) (n : String) : ℤ :=
  max 40 (jsOr0 ((base : ℚ) + (fluctOf n : ℚ) * 0.5))

/-- Id-keyed volume: `Math.max(40, base + fluct * 0.6 | 0)`. -/
def vphId (base : ℤ) (id : String) : ℤ :=
  max 40 (jsOr0 ((base : ℚ) + (fluctOf id : ℚ) * 0.6))

/-- One catalog record, as `computeImpactStats` reads
`feat.properties`: `{ osm_id, name, highway, length_km }`. -/
structure Feature where
  osm_id : String
  name : Option String
  highway : String
  length_km : Option ℚ
deriving DecidableEq

/-- A first-pass row: `{ id, name, highway, length_km, vehiclesPerHour }`. -/
structure Row0 where
  id : String
  name : Option String
  highway : String
  length_km : Option ℚ
  vehiclesPerHour : ℤ
deriving DecidableEq

/-- A finished `SegmentImpact` row with the derived fields added. -/
structure Row where
  id : String
  name : Option String
  highway : String
  length_km : Option ℚ
  vehiclesPerHour : ℤ
  share : ℚ
  impactScore : ℚ
  category : String
deriving DecidableEq

/-- `geojson.features.find(f => f.properties.osm_id === id)`. -/
def resolve (features : List Feature) (id : String) : Option Feature :=
  features.find? (fun f => f.osm_id == id)

/-- Assoc-list lookup, modelling `nameSeedCache.has`/`get`. -/
def cacheLookup (n : String) : List (String × ℤ) → Option ℤ
  | [] => none
  | (k, v) :: rest => if k = n then some v else cacheLookup n rest

/-- Accumulator of the first pass over the selected ids. -/
structure ScanState where
  rows : List Row0
  totalKm : ℚ
  cache : List (String × ℤ)

/-- One iteration of `Array.from(selectedIds).forEach(id => ...)`:
resolve the id, accumulate `totalKm`, and compute `vehiclesPerHour`,
using the name-keyed cache for non-empty normalized names. -/
def scanStep (features : List Feature) (st : ScanState) (id : String) : ScanState :=
  match resolve features id with
  | none => st
  | some f =>
    let totalKm := st.totalKm + f.length_km.getD 0
    let n := normName f.name
    if n = "" then
      let v := vphId (baseByType f.highway) id
      ⟨st.rows ++ [⟨id, f.name, f.highway, f.length_km, v⟩], totalKm, st.cache⟩
    else
      match cacheLookup n st.cache with
      | some v => ⟨st.rows ++ [⟨id, f.name, f.highway, f.length_km, v⟩], totalKm, st.cache⟩
      | none =>
        let v := vphNamed (baseByType f.highway) n
        ⟨st.rows ++ [⟨id, f.name, f.highway, f.length_km, v⟩], totalKm, (n, v) :: st.cache⟩

/-- The whole first pass, in selection (insertion) order. -/
def scanIds (features : List Feature) (st : ScanState) : List String → ScanState
  | [] => st
  | id :: rest => scanIds features (scanStep features st id) rest

/-- `rows.reduce((a, r) => a + r.vehiclesPerHour, 0)`. -/
def sumVehicles (rows : List Row0) : ℤ :=
  rows.foldl (fun a r => a + r.vehiclesPerHour) 0

/-- Category from the landmark override and the fixed thresholds, then the
footway / residential / tertiary overrides, in source order. -/
def categoryOf (nameLC : String) (highway : String) (impactScore : ℚ) : String :=
  let c0 :=
    if nameLC ∈ forceExtremeNames then "extreme"
    else if impactScore < 130 then "non-impactful"
    else if impactScore < 300 then "low"
    else if impactScore < 680 then "impactful"
    else if impactScore < 1250 then "very"
    else "extreme"
  let c1 := if highway = "footway" then "non-impactful" else c0
  let c2 := if highway = "residential" ∧ c1 = "non-impactful" then "low" else c1
  if highway = "tertiary" ∧ (c2 = "non-impactful" ∨ c2 = "low") then "impactful" else c2

/-- Lower-casing of an optional name, as in
`(r.name || '').toLowerCase()` (note: no trim in the landmark check). -/
def nameLCOf (name : Option String) : String :=
  ⟨((name.getD ("")).data).map lowerChar⟩

/-- Second pass over one row: share, impact score (through the abstract
`fpow` standing for `Math.pow`), and final category. -/
def enrichRow (fpow : ℚ → ℚ → ℚ) (areaVehicles : ℚ) (r : Row0) : Row :=
  let share := (r.vehiclesPerHour : ℚ) / areaVehicles
  let len := r.length_km.getD 0
  let impactScore := fpow (r.vehiclesPerHour : ℚ) 0.9 * fpow share 0.65 * (1 + len * 1.8)
  ⟨r.id, r.name, r.highway, r.length_km, r.vehiclesPerHour, share, impactScore,
    categoryOf (nameLCOf r.name) r.highway impactScore⟩

/-- `acc[r.category] = (acc[r.category] || 0) + 1` on an assoc list. -/
def bumpCount : List (String × ℕ) → String → List (String × ℕ)
  | [], c => [(c, 1)]
  | (k, m) :: rest, c =>
    if k = c then (k, m + 1) :: rest else (k, m) :: bumpCount rest c

/-- The `ImpactSummary` result of `computeImpactStats`. -/
structure ImpactSummary where
  totalKm : ℚ
  areaVehicles : ℤ
  rows : List Row
  distribution : List (String × ℕ)
deriving DecidableEq

/-- `computeImpactStats(geojson, selectedIds)`, parameterised by the
floating-point power function.  Returns `none` for an absent catalog or an
empty selection, mirroring the early `return null`. -/
def computeImpactStats (fpow : ℚ → ℚ → ℚ) (geojson : Option (List Feature))
    (selectedIds : List String) : Option ImpactSummary :=
  match geojson with
  | none => none
  | some features =>
    if selectedIds.isEmpty then none
    else
      let st := scanIds features ⟨[], 0, []⟩ selectedIds
      let areaVehicles : ℚ := (sumVehicles st.rows : ℚ) * 1.35 + 500
      let rows := st.rows.map (enrichRow fpow areaVehicles)
      some ⟨(round (st.totalKm * 1000) : ℚ) / 1000, round areaVehicles, rows,
        rows.foldl (fun acc r => bumpCount acc r.category) []⟩

/-- Metric directionality (`better: 'lower' | 'higher' | 'depends'`). -/
inductive Better where
  | lower
  | higher
  | depends
deriving DecidableEq

/-- One configured metric: key, directionality and optional unit scaling. -/
structure MetricDef where
  key : String
  better : Better
  scale : ℚ → ℚ

/-- The KPI snapshot shape shared by all simulation results. -/
structure KPISnapshot where
  avgTravelTimeMin : ℚ
  avgDelayMin : ℚ
  maxDelayMin : ℚ
  avgQueueTimeMin : ℚ
  avgSpeedKmh : ℚ
  vkt : ℚ
  vht : ℚ
  pm25 : ℚ
  o3 : ℚ
  no2 : ℚ
  pm10 : ℚ
deriving DecidableEq

/-- The percent-change formula with its explicit zero-guard:
`((a - b) / (b === 0 ? 1 : b)) * 100`. -/
def pctChange (b a : ℚ) : ℚ :=
  (a - b) / (if b = 0 then 1 else b) * 100

/-- `isImproved(better, before, after)` from PostOptimizationResultsPanel. -/
def isImproved (better : Better) (b a : ℚ) : Bool :=
  match better with
  | .higher => a > b
  | .lower => a < b
  | .depends => |a - b| < |b|

/-- `NEUTRAL_THRESHOLD_PCT = 0.4`. -/
def NEUTRAL_THRESHOLD_PCT : ℚ := 0.4

/-- One computed optimization-stage metric row. -/
structure MetricRow where
  key : String
  better : Better
  before : ℚ
  after : ℚ
  delta : ℚ
  pct : ℚ
  improved : Bool
  neutral : Bool
  worsened : Bool
deriving DecidableEq

/-- The per-metric body of `METRICS.map(...)` in
PostOptimizationResultsPanel: scale, delta, percent change and the three
classification flags. -/
def optMetricRow (m : MetricDef) (bRaw aRaw : ℚ) : MetricRow :=
  let b := m.scale bRaw
  let a := m.scale aRaw
  let pct := pctChange b a
  { key := m.key
    better := m.better
    before := b
    after := a
    delta := a - b
    pct := pct
    improved := decide (NEUTRAL_THRESHOLD_PCT ≤ |pct|) && isImproved m.better b a
    neutral := decide (|pct| < NEUTRAL_THRESHOLD_PCT)
    worsened := decide (NEUTRAL_THRESHOLD_PCT ≤ |pct|)
      && !(decide (NEUTRAL_THRESHOLD_PCT ≤ |pct|) && isImproved m.better b a)
      && decide (pct ≠ 0) }

/-- The optimization composite score: baseline 52, capped magnitude 12,
asymmetric weights 0.55 / 0.75, neutral penalty 0.15, clamped to [0,100]. -/
def optimizationScore (rows : List MetricRow) : ℚ :=
  let s := rows.foldl
    (fun s r =>
      let magnitude := min 12 |r.pct|
      if r.improved then s + magnitude * 0.55
      else if r.worsened then s - magnitude * 0.75
      else if r.neutral then s - 0.15
      else s) 52
  max 0 (min 100 s)

/-- One computed closure-stage comparison row (PostClosureAnalysisPanel). -/
structure CRow where
  key : String
  better : Better
  before : ℚ
  after : ℚ
  change : ℚ
deriving DecidableEq

/-- The per-metric body of `defs.map(...)` in PostClosureAnalysisPanel. -/
def closureRow (d : MetricDef) (bRaw aRaw : ℚ) : CRow :=
  let b := d.scale bRaw
  let a := d.scale aRaw
  ⟨d.key, d.better, b, a, pctChange b a⟩

/-- The metric keys aggregated by the closure-stage impact overview. -/
def overviewKeys : List String :=
  ["avgTravelTimeMin", "avgSpeedKmh", "vkt", "vht", "pm25", "no2"]

/-- `weightMap[key] || 0` from `ImpactOverview`. -/
def impactWeight (key : String) : ℚ :=
  if key = "avgTravelTimeMin" then 0.24
  else if key = "avgSpeedKmh" then 0.20
  else if key = "vkt" then 0.12
  else if key = "vht" then 0.22
  else if key = "pm25" then 0.10
  else if key = "no2" then 0.12
  else 0

/-- The closure-stage impact score: directional weighted sum anchored at
55 and clamped to [0,100]; `none` when no overview metric is present,
mirroring the early `return null`. -/
def impactOverviewScore (rows : List CRow) : Option ℚ :=
  let selected := rows.filter (fun r => r.key ∈ overviewKeys)
  if selected.isEmpty then none
  else
    let score := selected.foldl
      (fun s c =>
        let w := impactWeight c.key
        match c.better with
        | .higher => s + w * (-c.change)
        | .lower => s + w * (c.change * (-1))
        | .depends => s + w * (-|c.change| * 0.25)) 0
    some (max 0 (min 100 (55 + score)))

/-- The fixed baseline snapshot built on completion of the closures phase
(updated simulation utilities, src/unnamed/part_000). -/
def closureBefore : KPISnapshot :=
  { avgTravelTimeMin := 18.2
    avgDelayMin := 2.4
    maxDelayMin := 9.1
    avgQueueTimeMin := 1.20
    avgSpeedKmh := 34.5
    vkt := 125800
    vht := 19800
    pm25 := 15.50
    o3 := 25.70
    no2 := 19.30
    pm10 := 23.00 }

/-- The synthetic "after" snapshot: the fixed per-metric closure
degradation factors applied to `closureBefore`. -/
def closureAfter : KPISnapshot :=
  { avgTravelTimeMin := closureBefore.avgTravelTimeMin * 1.05
    avgDelayMin := closureBefore.avgDelayMin * 1.15
    maxDelayMin := closureBefore.maxDelayMin * 1.10
    avgQueueTimeMin := closureBefore.avgQueueTimeMin * 1.12
    avgSpeedKmh := closureBefore.avgSpeedKmh * 0.96
    vkt := closureBefore.vkt * 0.99
    vht := closureBefore.vht * 1.06
    pm25 := closureBefore.pm25 * 1.03
    o3 := closureBefore.o3 * 1.005
    no2 := closureBefore.no2 * 1.02
    pm10 := closureBefore.pm10 * 1.01 }

/-- One observable callback invocation of the phase runner. -/
inductive Event where
  | phase : Option String → Event
  | progress : ℚ → Event
  | results : KPISnapshot → KPISnapshot → Event
  | done : Event
deriving DecidableEq

/-- The progress value one animation frame reports at elapsed time `t`
into a phase of length `duration`: ease-out cubic scaled to 0..100, values
in (0,3) snapped to 3, and exactly 100 once `raw` reaches 1. -/
def easedProgress (duration t : ℚ) : ℚ :=
  let raw := min 1 (t / duration)
  let eased := 1 - (1 - raw) ^ 3
  let prog := eased * 100
  let prog := if 0 < prog ∧ prog < 3 then 3 else prog
  if 1 ≤ raw then 100 else prog

/-- Whether a phase's frame schedule ever reaches its duration. -/
def phaseCompletes (duration : ℚ) : List ℚ → Bool
  | [] => false
  | t :: ts => if 1 ≤ min 1 (t / duration) then true else phaseCompletes duration ts

/-- The progress callbacks of one phase: one per frame, stopping at the
first frame whose `raw` reaches 1 (after which `setTimeout(next, pause)`
is scheduled instead of another frame). -/
def phaseEvents (duration : ℚ) : List ℚ → List Event
  | [] => []
  | t :: ts =>
    Event.progress (easedProgress duration t) ::
      (if 1 ≤ min 1 (t / duration) then [] else phaseEvents duration ts)

/-- The callback trace of one `runDualPhaseSimulation` invocation, driven
by the two phases' frame schedules: phase change to "baseline", its
progress frames, then (if it completes) phase change to "closures", its
progress frames, then (if it completes) the optional results callback,
phase change to `null`, progress reset to 0, and the done callback. -/
def runDualPhaseTrace (hasResults : Bool) (ts1 ts2 : List ℚ) (bd cd : ℚ) : List Event :=
  Event.phase (some ("baseline")) :: phaseEvents bd ts1 ++
    (if phaseCompletes bd ts1 then
      Event.phase (some ("closures")) :: phaseEvents cd ts2 ++
        (if phaseCompletes cd ts2 then
          (if hasResults then [Event.results closureBefore closureAfter] else []) ++
            [Event.phase none, Event.progress 0, Event.done]
        else [])
    else [])

/-- `startSimulation` from TrafficClosure_UI: guarded only on an empty
selection, then an unconditional runner start (defaults 1500/1600). -/
def startSimulation (selectedSize : ℕ) (ts1 ts2 : List ℚ) : List Event :=
  if selectedSize = 0 then [] else runDualPhaseTrace true ts1 ts2 1500 1600

/-- `startOptimization` from TrafficClosure_UI: `if (optimizing) return`
makes a re-entrant start a silent no-op (the function returns `undefined`
either way); otherwise the runner starts with durations 1100/1300. -/
def startOptimization (optimizing : Bool) (ts1 ts2 : List ℚ) : List Event :=
  if optimizing then [] else runDualPhaseTrace true ts1 ts2 1100 1300

/-- The road-class base volume of the first selected id (in iteration
order) that resolves to a catalog feature whose normalized name is `n`.
This is the base the name-keyed cache captures. -/
def firstBaseFor (features : List Feature) : List String → String → Option ℤ
  | [], _ => none
  | id :: rest, n =>
    match resolve features id with
    | none => firstBaseFor features rest n
    | some f =>
      if normName f.name = n then some (baseByType f.highway)
      else firstBaseFor features rest n

/-- The volume `computeImpactStats` actually assigns to a selected id:
the id-keyed formula for unnamed segments, and for named segments the
name-keyed formula seeded with the base of the first same-named resolved
segment of the selection. -/
def expectedVph (features : List Feature) (sel : List String) (id : String) : Option ℤ :=
  match resolve features id with
  | none => none
  | some f =>
    if normName f.name = "" then some (vphId (baseByType f.highway) id)
    else (firstBaseFor features sel (normName f.name)).map
      (fun b => vphNamed b (normName f.name))

/-- The selection-independent volume of a resolved feature, meaningful
when all same-named catalog segments share one base volume. -/
def pureVph (f : Feature) (id : String) : ℤ :=
  if normName f.name = "" then vphId (baseByType f.highway) id
  else vphNamed (baseByType f.highway) (normName f.name)

/-- The selection-independent first-pass row of a selected id. -/
def pureRow0 (features : List Feature) (id : String) : Option Row0 :=
  (resolve features id).map (fun f => ⟨id, f.name, f.highway, f.length_km, pureVph f id⟩)

/-- All same-named (non-empty normalized name) catalog segments share one
base volume. -/
def SameBase (features : List Feature) : Prop :=
  ∀ f ∈ features, ∀ g ∈ features,
    normName f.name ≠ "" → normName f.name = normName g.name →
    baseByType f.highway = baseByType g.highway

/-- The improvement condition of the spec, per directionality. -/
def improvedCond (better : Better) (b a : ℚ) : Prop :=
  match better with
  | .higher => a > b
  | .lower => a < b
  | .depends => |a - b| < |b|

/-- A constant standing for `Math.pow` in concrete instantiations where
the power values are irrelevant. -/
def pow0 : ℚ → ℚ → ℚ := fun _ _ => 0

lemma isImproved_iff (better : Better) (b a : ℚ) :
    isImproved better b a = true ↔ improvedCond better b a := by
  cases better <;> simp [isImproved, improvedCond]

lemma optRow_pct (m : MetricDef) (bRaw aRaw : ℚ) :
    (optMetricRow m bRaw aRaw).pct = pctChange (m.scale bRaw) (m.scale aRaw) := rfl

lemma optRow_neutral_iff (m : MetricDef) (bRaw aRaw : ℚ) :
    (optMetricRow m bRaw aRaw).neutral = true ↔
      |(optMetricRow m bRaw aRaw).pct| < NEUTRAL_THRESHOLD_PCT := by
  simp [optMetricRow]

lemma optRow_improved_iff (m : MetricDef) (bRaw aRaw : ℚ) :
    (optMetricRow m bRaw aRaw).improved = true ↔
      NEUTRAL_THRESHOLD_PCT ≤ |(optMetricRow m bRaw aRaw).pct| ∧
        improvedCond m.better (m.scale bRaw) (m.scale aRaw) := by
  simp [optMetricRow, isImproved_iff]

lemma thresh_pct_ne_zero {p : ℚ} (h : NEUTRAL_THRESHOLD_PCT ≤ |p|) : p ≠ 0 := by
  intro h0
  rw [h0] at h
  norm_num [NEUTRAL_THRESHOLD_PCT] at h

lemma optRow_worsened_iff (m : MetricDef) (bRaw aRaw : ℚ) :
    (optMetricRow m bRaw aRaw).worsened = true ↔
      NEUTRAL_THRESHOLD_PCT ≤ |(optMetricRow m bRaw aRaw).pct| ∧
        ¬ improvedCond m.better (m.scale bRaw) (m.scale aRaw) := by
  simp only [optMetricRow, Bool.and_eq_true, Bool.not_eq_true', Bool.and_eq_false_iff,
    decide_eq_true_eq, decide_eq_false_iff_not, not_not]
  constructor
  · rintro ⟨⟨hle, himp⟩, hne⟩
    refine ⟨hle, ?_⟩
    rcases himp with h | h
    · exact absurd hle h
    · rw [← isImproved_iff]
      simp [h]
  · rintro ⟨hle, hni⟩
    refine ⟨⟨hle, ?_⟩, thresh_pct_ne_zero hle⟩
    right
    rw [← isImproved_iff] at hni
    simpa using hni

/-- C6: in the optimization-stage evaluation a row is neutral exactly when
`|percentChange| < 0.4`; otherwise it is improved exactly when the
directionality condition holds (higher-is-better and after > before,
lower-is-better and after < before, or context-dependent and
`|after - before| < |before|`), and worsened exactly otherwise. -/
theorem metric_classification_c6 (m : MetricDef) (bRaw aRaw : ℚ) :
    ((optMetricRow m bRaw aRaw).neutral = true ↔
      |(optMetricRow m bRaw aRaw).pct| < NEUTRAL_THRESHOLD_PCT) ∧
    ((optMetricRow m bRaw aRaw).improved = true ↔
      NEUTRAL_THRESHOLD_PCT ≤ |(optMetricRow m bRaw aRaw).pct| ∧
        improvedCond m.better (m.scale bRaw) (m.scale aRaw)) ∧
    ((optMetricRow m bRaw aRaw).worsened = true ↔
      NEUTRAL_THRESHOLD_PCT ≤ |(optMetricRow m bRaw aRaw).pct| ∧
        ¬ improvedCond m.better (m.scale bRaw) (m.scale aRaw)) :=
  ⟨optRow_neutral_iff m bRaw aRaw, optRow_improved_iff m bRaw aRaw,
    optRow_worsened_iff m bRaw aRaw⟩

/-- C10: the improved / worsened / neutral flags of every computed
optimization-stage row are mutually exclusive and exhaustive. -/
theorem metric_flags_partition_c10 (m : MetricDef) (bRaw aRaw : ℚ) :
    (((optMetricRow m bRaw aRaw).improved || (optMetricRow m bRaw aRaw).worsened ||
        (optMetricRow m bRaw aRaw).neutral) = true) ∧
    (((optMetricRow m bRaw aRaw).improved && (optMetricRow m bRaw aRaw).worsened) = false) ∧
    (((optMetricRow m bRaw aRaw).improved && (optMetricRow m bRaw aRaw).neutral) = false) ∧
    (((optMetricRow m bRaw aRaw).worsened && (optMetricRow m bRaw aRaw).neutral) = false) := by
  have hn := optRow_neutral_iff m bRaw aRaw
  have hi := optRow_improved_iff m bRaw aRaw
  have hw := optRow_worsened_iff m bRaw aRaw
  rcases lt_or_le |(optMetricRow m bRaw aRaw).pct| NEUTRAL_THRESHOLD_PCT with h | h
  · have hn' : (optMetricRow m bRaw aRaw).neutral = true := hn.mpr h
    have hi' : (optMetricRow m bRaw aRaw).improved = false := by
      rw [Bool.eq_false_iff]
      intro hc
      exact absurd ((hi.mp hc).1) (not_le.mpr h)
    have hw' : (optMetricRow m bRaw aRaw).worsened = false := by
      rw [Bool.eq_false_iff]
      intro hc
      exact absurd ((hw.mp hc).1) (not_le.mpr h)
    simp [hn', hi', hw']
  · have hn' : (optMetricRow m bRaw aRaw).neutral = false := by
      rw [Bool.eq_false_iff]
      intro hc
      exact absurd (hn.mp hc) (not_lt.mpr h)
    by_cases hc : improvedCond m.better (m.scale bRaw) (m.scale aRaw)
    · have hi' : (optMetricRow m bRaw aRaw).improved = true := hi.mpr ⟨h, hc⟩
      have hw' : (optMetricRow m bRaw aRaw).worsened = false := by
        rw [Bool.eq_false_iff]
        intro hx
        exact absurd hc ((hw.mp hx).2)
      simp [hn', hi', hw']
    · have hw' : (optMetricRow m bRaw aRaw).worsened = true := hw.mpr ⟨h, hc⟩
      have hi' : (optMetricRow m bRaw aRaw).improved = false := by
        rw [Bool.eq_false_iff]
        intro hx
        exact absurd ((hi.mp hx).2) hc
      simp [hn', hi', hw']

/-- C8: every evaluated metric row computes
`percentChange = (after - before) / (before == 0 ? 1 : before) * 100`:
the guarded denominator is never zero (here in multiplicative form), in
both the optimization-stage and the closure-stage evaluators, and the
`before = 0, after = 5` convention case yields 500. -/
theorem pct_zero_guard_c8 (m : MetricDef) (bRaw aRaw : ℚ) :
    (optMetricRow m bRaw aRaw).pct * (if m.scale bRaw = 0 then 1 else m.scale bRaw) =
      (m.scale aRaw - m.scale bRaw) * 100 ∧
    (closureRow m bRaw aRaw).change * (if m.scale bRaw = 0 then 1 else m.scale bRaw) =
      (m.scale aRaw - m.scale bRaw) * 100 ∧
    0 < |if m.scale bRaw = 0 then (1 : ℚ) else m.scale bRaw| ∧
    pctChange 0 5 = 500 := by
  have hD : (if m.scale bRaw = 0 then (1 : ℚ) else m.scale bRaw) ≠ 0 := by
    split
    · exact one_ne_zero
    · assumption
  have hmain : pctChange (m.scale bRaw) (m.scale aRaw) *
      (if m.scale bRaw = 0 then 1 else m.scale bRaw) =
      (m.scale aRaw - m.scale bRaw) * 100 := by
    rw [pctChange]
    field_simp
  refine ⟨hmain, hmain, abs_pos.mpr hD, ?_⟩
  norm_num [pctChange]

lemma clamp_bounds (s : ℚ) : 0 ≤ max 0 (min 100 s) ∧ max 0 (min 100 s) ≤ 100 :=
  ⟨le_max_left 0 _, max_le (by norm_num) (min_le_left 100 s)⟩

lemma impactOverviewScore_shape (crows : List CRow) (q : ℚ)
    (hq : impactOverviewScore crows = some q) : ∃ s, q = max 0 (min 100 s) := by
  rw [impactOverviewScore] at hq
  split at hq
  · exact Option.noConfusion hq
  · exact ⟨_, (Option.some.injEq _ _ ▸ hq).symm⟩

/-- C5: both composite scores are clamped into [0, 100]: the optimization
score (anchored at 52) for every row list, and the closure-stage impact
score (anchored at 55) whenever it is produced, however large the
percent changes are. -/
theorem composite_score_bounds_c5 (orows : List MetricRow) (crows : List CRow) (q : ℚ)
    (hq : impactOverviewScore crows = some q) :
    0 ≤ optimizationScore orows ∧ optimizationScore orows ≤ 100 ∧ 0 ≤ q ∧ q ≤ 100 := by
  obtain ⟨s, rfl⟩ := impactOverviewScore_shape crows q hq
  exact ⟨(clamp_bounds _).1, (clamp_bounds _).2, (clamp_bounds s).1, (clamp_bounds s).2⟩

/-- C5 witness: the bounds at a concrete evaluation (empty optimization
row list, and one closure-stage speed row giving impact score 279/5). -/
theorem composite_score_bounds_c5_witness :
    0 ≤ optimizationScore [] ∧ optimizationScore [] ≤ 100 ∧
      0 ≤ (279 / 5 : ℚ) ∧ (279 / 5 : ℚ) ≤ 100 :=
  composite_score_bounds_c5 [] [⟨"avgSpeedKmh", Better.higher, 34.5, 33.12, -4⟩]
    (279 / 5)
    (by
      have hw : impactWeight ("avgSpeedKmh") = 0.20 := by
        rw [impactWeight, if_neg (by decide), if_pos rfl]
      simp only [impactOverviewScore, overviewKeys, List.filter, List.foldl, List.isEmpty]
      norm_num [hw])

lemma categoryOf_footway (nl : String) (sc : ℚ) :
    categoryOf nl ("footway") sc = "non-impactful" := by
  simp [categoryOf]

/-- C7: every row produced by `computeImpactStats` for a footway segment
is categorised `non-impactful`, whatever its impact score and even when
its name is in the forced-extreme landmark set (the footway override runs
after the landmark override). -/
theorem footway_override_c7 (fpow : ℚ → ℚ → ℚ) (geojson : Option (List Feature))
    (sel : List String) (s : ImpactSummary)
    (hs : computeImpactStats fpow geojson sel = some s) :
    ∀ r ∈ s.rows, r.highway = "footway" → r.category = "non-impactful" := by
  intro r hr hfw
  cases geojson with
  | none => exact Option.noConfusion hs
  | some features =>
    rw [computeImpactStats] at hs
    split at hs
    · exact Option.noConfusion hs
    · have hX := Option.some.inj hs
      rw [← hX] at hr
      obtain ⟨r0, hr0, hre⟩ := List.mem_map.mp hr
      have hh : r0.highway = "footway" := by rw [← hre] at hfw; exact hfw
      rw [← hre]
      show categoryOf (nameLCOf r0.name) r0.highway _ = "non-impactful"
      rw [hh]
      exact categoryOf_footway _ _

/-- `Math.pow` stand-in returning a huge constant, for the footway
witness: the score plays no role in the override. -/
def pow9 : ℚ → ℚ → ℚ := fun _ _ => 99999

/-- A one-feature catalog: a footway that is also a forced-extreme
landmark. -/
def fwFeats : List Feature := [⟨"w", some ("mühlesteg"), "footway", some 1⟩]

/-- Fallback summary for `Option.getD` extractions. -/
def impactFallback : ImpactSummary := ⟨0, 0, [], []⟩

/-- Fallback row for `headD` extractions. -/
def rowFallback : Row := ⟨"", none, "", none, 0, 0, 0, ""⟩

/-- The summary computed for the footway landmark selection. -/
def fwSummary : ImpactSummary :=
  (computeImpactStats pow9 (some fwFeats) [("w")]).getD impactFallback

/-- Its single row. -/
def fwRow : Row := fwSummary.rows.headD rowFallback

lemma fwSummary_eq : computeImpactStats pow9 (some fwFeats) [("w")] = some fwSummary := rfl

lemma fwRow_mem : fwRow ∈ fwSummary.rows := by
  have h : fwSummary.rows = [fwRow] := rfl
  rw [h]
  exact List.mem_singleton_self _

/-- C7 witness: a footway segment named "mühlesteg" (in the landmark set),
with a huge power stand-in, still lands in `non-impactful`. -/
theorem footway_override_c7_witness : fwRow.category = "non-impactful" :=
  footway_override_c7 pow9 (some fwFeats) [("w")] fwSummary fwSummary_eq fwRow fwRow_mem rfl

lemma easedProgress_of_complete (d t : ℚ) (h : 1 ≤ min 1 (t / d)) :
    easedProgress d t = 100 := by
  simp only [easedProgress]
  rw [if_pos h]

lemma phaseEvents_concat (d : ℚ) (ts : List ℚ) (h : phaseCompletes d ts = true) :
    ∃ l, phaseEvents d ts = l ++ [Event.progress 100] := by
  induction ts with
  | nil => exact absurd h (by simp [phaseCompletes])
  | cons t ts ih =>
    by_cases hc : 1 ≤ min 1 (t / d)
    · exact ⟨[], by simp [phaseEvents, hc, easedProgress_of_complete d t hc]⟩
    · rw [phaseCompletes, if_neg hc] at h
      obtain ⟨l, hl⟩ := ih h
      exact ⟨Event.progress (easedProgress d t) :: l, by simp [phaseEvents, hc, hl]⟩

lemma phaseEvents_progress (d : ℚ) (ts : List ℚ) :
    ∀ e ∈ phaseEvents d ts, ∃ q, e = Event.progress q := by
  induction ts with
  | nil => simp [phaseEvents]
  | cons t ts ih =>
    intro e he
    rw [phaseEvents] at he
    rcases List.mem_cons.mp he with h | h
    · exact ⟨easedProgress d t, h⟩
    · split at h
      · exact absurd h (List.not_mem_nil e)
      · exact ih e h

lemma results_not_mem_phaseEvents (d : ℚ) (ts : List ℚ) (b a : KPISnapshot) :
    Event.results b a ∉ phaseEvents d ts := by
  intro h
  obtain ⟨q, hq⟩ := phaseEvents_progress d ts _ h
  exact Event.noConfusion hq

lemma done_not_mem_phaseEvents (d : ℚ) (ts : List ℚ) :
    Event.done ∉ phaseEvents d ts := by
  intro h
  obtain ⟨q, hq⟩ := phaseEvents_progress d ts _ h
  exact Event.noConfusion hq

lemma phase_not_mem_phaseEvents (d : ℚ) (ts : List ℚ) (p : Option String) :
    Event.phase p ∉ phaseEvents d ts := by
  intro h
  obtain ⟨q, hq⟩ := phaseEvents_progress d ts _ h
  exact Event.noConfusion hq

/-- `e => isPhaseEvent e` selects the phase-change callbacks of a trace. -/
def isPhaseEvent : Event → Bool
  | .phase _ => true
  | _ => false

lemma filter_phase_phaseEvents (d : ℚ) (ts : List ℚ) :
    (phaseEvents d ts).filter isPhaseEvent = [] := by
  rw [List.filter_eq_nil_iff]
  intro e he
  obtain ⟨q, hq⟩ := phaseEvents_progress d ts _ he
  rw [hq]
  simp [isPhaseEvent]

lemma runTrace_shape (hasResults : Bool) (ts1 ts2 : List ℚ) (bd cd : ℚ)
    (h1 : phaseCompletes bd ts1 = true) (h2 : phaseCompletes cd ts2 = true) :
    runDualPhaseTrace hasResults ts1 ts2 bd cd =
      Event.phase (some ("baseline")) :: phaseEvents bd ts1 ++
        (Event.phase (some ("closures")) :: phaseEvents cd ts2 ++
          ((if hasResults then [Event.results closureBefore closureAfter] else []) ++
            [Event.phase none, Event.progress 0, Event.done])) := by
  rw [runDualPhaseTrace, if_pos h1, if_pos h2]

/-- C9: whenever both phases complete, the trace of one run is exactly the
phase change to "baseline", its progress events ending in 100, the phase
change to "closures", its progress events ending in 100, the results
callback, the phase reset to `null`, the progress reset to 0, and the
done callback; the phase-callback subsequence is exactly
`["baseline", "closures", null]`, and the results and done callbacks each
fire exactly once, in that order. -/
theorem phase_sequencing_c9 (ts1 ts2 : List ℚ) (bd cd : ℚ)
    (h1 : phaseCompletes bd ts1 = true) (h2 : phaseCompletes cd ts2 = true) :
    runDualPhaseTrace true ts1 ts2 bd cd =
      Event.phase (some ("baseline")) :: phaseEvents bd ts1 ++
        (Event.phase (some ("closures")) :: phaseEvents cd ts2 ++
          [Event.results closureBefore closureAfter, Event.phase none,
            Event.progress 0, Event.done]) ∧
    (∃ l, phaseEvents bd ts1 = l ++ [Event.progress 100]) ∧
    (∃ l, phaseEvents cd ts2 = l ++ [Event.progress 100]) ∧
    (runDualPhaseTrace true ts1 ts2 bd cd).count
      (Event.results closureBefore closureAfter) = 1 ∧
    (runDualPhaseTrace true ts1 ts2 bd cd).count Event.done = 1 ∧
    (runDualPhaseTrace true ts1 ts2 bd cd).filter isPhaseEvent =
      [Event.phase (some ("baseline")), Event.phase (some ("closures")),
        Event.phase none] := by
  have hsh := runTrace_shape true ts1 ts2 bd cd h1 h2
  rw [if_pos rfl] at hsh
  refine ⟨by rw [hsh]; simp, phaseEvents_concat bd ts1 h1, phaseEvents_concat cd ts2 h2,
    ?_, ?_, ?_⟩
  · rw [hsh]
    simp [List.count_append, List.count_cons,
      List.count_eq_zero.mpr (results_not_mem_phaseEvents bd ts1 closureBefore closureAfter),
      List.count_eq_zero.mpr (results_not_mem_phaseEvents cd ts2 closureBefore closureAfter)]
  · rw [hsh]
    simp [List.count_append, List.count_cons,
      List.count_eq_zero.mpr (done_not_mem_phaseEvents bd ts1),
      List.count_eq_zero.mpr (done_not_mem_phaseEvents cd ts2)]
  · rw [hsh]
    simp [List.filter_append, List.filter_cons, filter_phase_phaseEvents, isPhaseEvent]

/-- C9 witness: a concrete run whose two phases complete on their first
frame at exactly the default durations. -/
theorem phase_sequencing_c9_witness :
    phaseCompletes 1500 [1500] = true ∧ phaseCompletes 1600 [1600] = true ∧
    (runDualPhaseTrace true [1500] [1600] 1500 1600 =
      Event.phase (some ("baseline")) :: phaseEvents 1500 [1500] ++
        (Event.phase (some ("closures")) :: phaseEvents 1600 [1600] ++
          [Event.results closureBefore closureAfter, Event.phase none,
            Event.progress 0, Event.done]) ∧
    (∃ l, phaseEvents 1500 [1500] = l ++ [Event.progress 100]) ∧
    (∃ l, phaseEvents 1600 [1600] = l ++ [Event.progress 100]) ∧
    (runDualPhaseTrace true [1500] [1600] 1500 1600).count
      (Event.results closureBefore closureAfter) = 1 ∧
    (runDualPhaseTrace true [1500] [1600] 1500 1600).count Event.done = 1 ∧
    (runDualPhaseTrace true [1500] [1600] 1500 1600).filter isPhaseEvent =
      [Event.phase (some ("baseline")), Event.phase (some ("closures")),
        Event.phase none]) :=
  ⟨by norm_num [phaseCompletes], by norm_num [phaseCompletes],
    phase_sequencing_c9 [1500] [1600] 1500 1600
      (by norm_num [phaseCompletes]) (by norm_num [phaseCompletes])⟩

/-- The `avgSpeedKmh` metric configuration (`better: 'higher'`, no unit
scaling). -/
def speedMetric : MetricDef := ⟨"avgSpeedKmh", Better.higher, fun v => v⟩

/-- C1: when both phases complete, the runner emits the results callback
with the fixed baseline snapshot and the degraded snapshot; the
degradation applies delay ×1.15 and speed ×0.96, so
`after.avgSpeedKmh = 34.5 * 0.96 = 33.12 < before.avgSpeedKmh`, and the
speed metric (higher-is-better) classifies as worsened. -/
theorem closure_snapshot_c1 (ts1 ts2 : List ℚ) (bd cd : ℚ)
    (h1 : phaseCompletes bd ts1 = true) (h2 : phaseCompletes cd ts2 = true) :
    Event.results closureBefore closureAfter ∈ runDualPhaseTrace true ts1 ts2 bd cd ∧
    closureAfter.avgDelayMin = closureBefore.avgDelayMin * 1.15 ∧
    closureAfter.avgSpeedKmh = closureBefore.avgSpeedKmh * 0.96 ∧
    closureAfter.avgSpeedKmh = 33.12 ∧
    closureAfter.avgSpeedKmh < closureBefore.avgSpeedKmh ∧
    (optMetricRow speedMetric closureBefore.avgSpeedKmh closureAfter.avgSpeedKmh).worsened
      = true := by
  have hsh := runTrace_shape true ts1 ts2 bd cd h1 h2
  rw [if_pos rfl] at hsh
  refine ⟨by rw [hsh]; simp, rfl, rfl, ?_, ?_, ?_⟩
  · show (34.5 : ℚ) * 0.96 = 33.12
    norm_num
  · show (34.5 : ℚ) * 0.96 < 34.5
    norm_num
  · rw [optRow_worsened_iff]
    constructor
    · show NEUTRAL_THRESHOLD_PCT ≤ |pctChange (34.5 : ℚ) (34.5 * 0.96)|
      norm_num [pctChange, NEUTRAL_THRESHOLD_PCT]
    · show ¬ improvedCond Better.higher (34.5 : ℚ) (34.5 * 0.96)
      norm_num [improvedCond]

/-- C1 witness: the same facts at a concrete completing frame schedule. -/
theorem closure_snapshot_c1_witness :
    phaseCompletes 1500 [1500] = true ∧ phaseCompletes 1600 [1600] = true ∧
    (Event.results closureBefore closureAfter ∈
        runDualPhaseTrace true [1500] [1600] 1500 1600 ∧
      closureAfter.avgDelayMin = closureBefore.avgDelayMin * 1.15 ∧
      closureAfter.avgSpeedKmh = closureBefore.avgSpeedKmh * 0.96 ∧
      closureAfter.avgSpeedKmh = 33.12 ∧
      closureAfter.avgSpeedKmh < closureBefore.avgSpeedKmh ∧
      (optMetricRow speedMetric closureBefore.avgSpeedKmh closureAfter.avgSpeedKmh).worsened
        = true) :=
  ⟨by norm_num [phaseCompletes], by norm_num [phaseCompletes],
    closure_snapshot_c1 [1500] [1600] 1500 1600
      (by norm_num [phaseCompletes]) (by norm_num [phaseCompletes])⟩

/-- C2 counterexample: the runner consults no "run already active" state
and returns no value, so a second invocation made while a run is active
behaves exactly like any invocation: it is not a no-op and it produces a
full second sequence of phase/progress/results/done callbacks (here at a
one-frame-per-phase schedule), contradicting the claimed rejected-start
boolean protocol. -/
theorem reentrant_run_c2_counterexample :
    (runDualPhaseTrace true [1100] [1300] 1100 1300).isEmpty = false ∧
    runDualPhaseTrace true [1100] [1300] 1100 1300 =
      [Event.phase (some ("baseline")), Event.progress 100,
        Event.phase (some ("closures")), Event.progress 100,
        Event.results closureBefore closureAfter,
        Event.phase none, Event.progress 0, Event.done] := by
  have hc1 : (1 : ℚ) ≤ min 1 (1100 / 1100) := by norm_num
  have hc2 : (1 : ℚ) ≤ min 1 (1300 / 1300) := by norm_num
  have h1 : phaseCompletes 1100 [1100] = true := by
    rw [phaseCompletes, if_pos hc1]
  have h2 : phaseCompletes 1300 [1300] = true := by
    rw [phaseCompletes, if_pos hc2]
  have e1 : phaseEvents 1100 [1100] = [Event.progress 100] := by
    rw [phaseEvents, if_pos hc1, easedProgress_of_complete 1100 1100 hc1]
  have e2 : phaseEvents 1300 [1300] = [Event.progress 100] := by
    rw [phaseEvents, if_pos hc2, easedProgress_of_complete 1300 1300 hc2]
  have hsh := runTrace_shape true [1100] [1300] 1100 1300 h1 h2
  rw [if_pos rfl, e1, e2] at hsh
  rw [hsh]
  exact ⟨rfl, rfl⟩

/-- C2 (amended): the only re-entrancy guard in the code is the caller
`startOptimization`'s `optimizing` flag: with the flag set, a start is a
silent no-op producing no callbacks (the function returns `undefined`,
not a boolean); with it clear — and for `startSimulation` on any
non-empty selection — the runner itself starts unconditionally with a
phase change to "baseline", and when its phases complete it runs to the
full callback sequence. -/
theorem reentrant_run_c2_amended (ts1 ts2 : List ℚ) (n : ℕ) (hn : n ≠ 0)
    (h1 : phaseCompletes 1100 ts1 = true) (h2 : phaseCompletes 1300 ts2 = true) :
    startOptimization true ts1 ts2 = [] ∧
    startOptimization false ts1 ts2 = runDualPhaseTrace true ts1 ts2 1100 1300 ∧
    (runDualPhaseTrace true ts1 ts2 1100 1300).head? =
      some (Event.phase (some ("baseline"))) ∧
    (startSimulation n ts1 ts2).head? = some (Event.phase (some ("baseline"))) ∧
    runDualPhaseTrace true ts1 ts2 1100 1300 =
      Event.phase (some ("baseline")) :: phaseEvents 1100 ts1 ++
        (Event.phase (some ("closures")) :: phaseEvents 1300 ts2 ++
          [Event.results closureBefore closureAfter, Event.phase none,
            Event.progress 0, Event.done]) := by
  have hsh := runTrace_shape true ts1 ts2 1100 1300 h1 h2
  rw [if_pos rfl] at hsh
  refine ⟨rfl, rfl, by rw [hsh]; rfl, ?_, by rw [hsh]; simp⟩
  rw [startSimulation, if_neg hn, runDualPhaseTrace]
  rfl

/-- C2 amended witness: at a one-frame schedule with a one-segment
selection. -/
theorem reentrant_run_c2_amended_witness :
    startOptimization true [1100] [1300] = [] ∧
    startOptimization false [1100] [1300] =
      runDualPhaseTrace true [1100] [1300] 1100 1300 ∧
    (runDualPhaseTrace true [1100] [1300] 1100 1300).head? =
      some (Event.phase (some ("baseline"))) ∧
    (startSimulation 1 [1100] [1300]).head? = some (Event.phase (some ("baseline"))) ∧
    runDualPhaseTrace true [1100] [1300] 1100 1300 =
      Event.phase (some ("baseline")) :: phaseEvents 1100 [1100] ++
        (Event.phase (some ("closures")) :: phaseEvents 1300 [1300] ++
          [Event.results closureBefore closureAfter, Event.phase none,
            Event.progress 0, Event.done]) :=
  reentrant_run_c2_amended [1100] [1300] 1 (by norm_num)
    (by norm_num [phaseCompletes]) (by norm_num [phaseCompletes])

lemma firstBaseFor_nil (features : List Feature) (n : String) :
    firstBaseFor features [] n = none := rfl

lemma firstBaseFor_append_some (features : List Feature) (q : List String) (n : String)
    (b : ℤ) : ∀ p : List String, firstBaseFor features p n = some b →
      firstBaseFor features (p ++ q) n = some b := by
  intro p
  induction p with
  | nil => intro h; exact absurd h (by simp [firstBaseFor_nil])
  | cons id p ih =>
    intro h
    rw [firstBaseFor] at h
    rw [List.cons_append, firstBaseFor]
    cases hres : resolve features id with
    | none =>
      simp only [hres] at h ⊢
      exact ih h
    | some f =>
      simp only [hres] at h ⊢
      by_cases hn : normName f.name = n
      · rw [if_pos hn] at h ⊢
        exact h
      · rw [if_neg hn] at h ⊢
        exact ih h

lemma firstBaseFor_append_none (features : List Feature) (q : List String) (n : String) :
    ∀ p : List String, firstBaseFor features p n = none →
      firstBaseFor features (p ++ q) n = firstBaseFor features q n := by
  intro p
  induction p with
  | nil => intro _; rw [List.nil_append]
  | cons id p ih =>
    intro h
    rw [firstBaseFor] at h
    rw [List.cons_append, firstBaseFor]
    cases hres : resolve features id with
    | none =>
      simp only [hres] at h ⊢
      exact ih h
    | some f =>
      simp only [hres] at h ⊢
      by_cases hn : normName f.name = n
      · rw [if_pos hn] at h
        exact Option.noConfusion h
      · rw [if_neg hn] at h ⊢
        exact ih h

lemma firstBaseFor_singleton_hit (features : List Feature) (id : String) (f : Feature)
    (hres : resolve features id = some f) (n : String) (hn : normName f.name = n) :
    firstBaseFor features [id] n = some (baseByType f.highway) := by
  rw [firstBaseFor]
  simp only [hres]
  rw [if_pos hn]

lemma firstBaseFor_singleton_miss_resolved (features : List Feature) (id : String)
    (f : Feature) (hres : resolve features id = some f) (n : String)
    (hn : normName f.name ≠ n) : firstBaseFor features [id] n = none := by
  rw [firstBaseFor]
  simp only [hres]
  rw [if_neg hn]
  exact firstBaseFor_nil features n

lemma firstBaseFor_singleton_unresolved (features : List Feature) (id : String)
    (hres : resolve features id = none) (n : String) :
    firstBaseFor features [id] n = none := by
  rw [firstBaseFor]
  simp only [hres]
  exact firstBaseFor_nil features n

lemma expectedVph_mono (features : List Feature) (p q : List String) (id : String)
    (v : ℤ) (h : expectedVph features p id = some v) :
    expectedVph features (p ++ q) id = some v := by
  rw [expectedVph] at h ⊢
  cases hres : resolve features id with
  | none => simp only [hres] at h; exact Option.noConfusion h
  | some f =>
    simp only [hres] at h ⊢
    by_cases hn : normName f.name = ""
    · rw [if_pos hn] at h ⊢
      exact h
    · rw [if_neg hn] at h ⊢
      obtain ⟨b, hb, hv⟩ := Option.map_eq_some'.mp h
      rw [firstBaseFor_append_some features q _ b p hb]
      rw [Option.map_some']
      rw [hv]

/-- The invariant tying the name-keyed cache after processing the ids `p`
to the first same-named resolved segment of `p`. -/
def CacheOK (features : List Feature) (p : List String) (cache : List (String × ℤ)) : Prop :=
  ∀ n : String, n ≠ "" →
    (firstBaseFor features p n = none ∧ cacheLookup n cache = none) ∨
    (∃ b, firstBaseFor features p n = some b ∧ cacheLookup n cache = some (vphNamed b n))

lemma cacheLookup_cons_self (n : String) (v : ℤ) (cache : List (String × ℤ)) :
    cacheLookup n ((n, v) :: cache) = some v := by
  rw [cacheLookup, if_pos rfl]

lemma cacheLookup_cons_ne (n k : String) (v : ℤ) (cache : List (String × ℤ))
    (h : k ≠ n) : cacheLookup n ((k, v) :: cache) = cacheLookup n cache := by
  rw [cacheLookup, if_neg h]

lemma scanStep_unresolved (features : List Feature) (st : ScanState) (id : String)
    (hres : resolve features id = none) : scanStep features st id = st := by
  simp [scanStep, hres]

lemma scanStep_unnamed (features : List Feature) (st : ScanState) (id : String)
    (f : Feature) (hres : resolve features id = some f) (hn : normName f.name = "") :
    scanStep features st id =
      ⟨st.rows ++ [⟨id, f.name, f.highway, f.length_km, vphId (baseByType f.highway) id⟩],
        st.totalKm + f.length_km.getD 0, st.cache⟩ := by
  simp [scanStep, hres, hn]

lemma scanStep_hit (features : List Feature) (st : ScanState) (id : String)
    (f : Feature) (v : ℤ) (hres : resolve features id = some f)
    (hn : normName f.name ≠ "")
    (hcl : cacheLookup (normName f.name) st.cache = some v) :
    scanStep features st id =
      ⟨st.rows ++ [⟨id, f.name, f.highway, f.length_km, v⟩],
        st.totalKm + f.length_km.getD 0, st.cache⟩ := by
  simp [scanStep, hres, hn, hcl]

lemma scanStep_miss (features : List Feature) (st : ScanState) (id : String)
    (f : Feature) (hres : resolve features id = some f)
    (hn : normName f.name ≠ "")
    (hcl : cacheLookup (normName f.name) st.cache = none) :
    scanStep features st id =
      ⟨st.rows ++ [⟨id, f.name, f.highway, f.length_km,
          vphNamed (baseByType f.highway) (normName f.name)⟩],
        st.totalKm + f.length_km.getD 0,
        (normName f.name, vphNamed (baseByType f.highway) (normName f.name)) :: st.cache⟩ := by
  simp [scanStep, hres, hn, hcl]

lemma scanIds_spec (features : List Feature) (rest : List String) :
    ∀ (p : List String) (st : ScanState),
      CacheOK features p st.cache →
      (∀ r ∈ st.rows, expectedVph features p r.id = some r.vehiclesPerHour) →
      CacheOK features (p ++ rest) (scanIds features st rest).cache ∧
      ∀ r ∈ (scanIds features st rest).rows,
        expectedVph features (p ++ rest) r.id = some r.vehiclesPerHour := by
  induction rest with
  | nil =>
    intro p st hc hr
    simp only [scanIds, List.append_nil]
    exact ⟨hc, hr⟩
  | cons id rest ih =>
    intro p st hc hr
    have key : CacheOK features (p ++ [id]) (scanStep features st id).cache ∧
        ∀ r ∈ (scanStep features st id).rows,
          expectedVph features (p ++ [id]) r.id = some r.vehiclesPerHour := by
      cases hres : resolve features id with
      | none =>
        rw [scanStep_unresolved features st id hres]
        constructor
        · intro n hn
          rcases hc n hn with ⟨hf, hl⟩ | ⟨b, hf, hl⟩
          · left
            refine ⟨?_, hl⟩
            rw [firstBaseFor_append_none features [id] n p hf]
            exact firstBaseFor_singleton_unresolved features id hres n
          · exact Or.inr ⟨b, firstBaseFor_append_some features [id] n b p hf, hl⟩
        · intro r hrr
          exact expectedVph_mono features p [id] r.id _ (hr r hrr)
      | some f =>
        by_cases hn0 : normName f.name = ""
        · rw [scanStep_unnamed features st id f hres hn0]
          constructor
          · intro n hn
            rcases hc n hn with ⟨hf, hl⟩ | ⟨b, hf, hl⟩
            · left
              refine ⟨?_, hl⟩
              rw [firstBaseFor_append_none features [id] n p hf]
              refine firstBaseFor_singleton_miss_resolved features id f hres n ?_
              rw [hn0]
              intro hcon
              exact hn hcon.symm
            · exact Or.inr ⟨b, firstBaseFor_append_some features [id] n b p hf, hl⟩
          · intro r hrr
            rcases List.mem_append.mp hrr with hmem | hmem
            · exact expectedVph_mono features p [id] r.id _ (hr r hmem)
            · rw [List.mem_singleton] at hmem
              subst hmem
              show expectedVph features (p ++ [id]) id = some (vphId (baseByType f.highway) id)
              rw [expectedVph]
              simp only [hres]
              rw [if_pos hn0]
        · cases hcl : cacheLookup (normName f.name) st.cache with
          | none =>
            rw [scanStep_miss features st id f hres hn0 hcl]
            rcases hc (normName f.name) hn0 with ⟨hf, hl⟩ | ⟨b, hf, hl⟩
            · have hfid : firstBaseFor features (p ++ [id]) (normName f.name) =
                  some (baseByType f.highway) := by
                rw [firstBaseFor_append_none features [id] _ p hf]
                exact firstBaseFor_singleton_hit features id f hres _ rfl
              constructor
              · intro n' hn'
                by_cases hne : n' = normName f.name
                · subst hne
                  refine Or.inr ⟨baseByType f.highway, hfid, ?_⟩
                  rw [cacheLookup_cons_self]
                · have hlk : cacheLookup n'
                      ((normName f.name, vphNamed (baseByType f.highway) (normName f.name))
                        :: st.cache) = cacheLookup n' st.cache :=
                    cacheLookup_cons_ne n' _ _ st.cache (fun h => hne h.symm)
                  rcases hc n' hn' with ⟨hf', hl'⟩ | ⟨b', hf', hl'⟩
                  · left
                    refine ⟨?_, by rw [hlk]; exact hl'⟩
                    rw [firstBaseFor_append_none features [id] n' p hf']
                    exact firstBaseFor_singleton_miss_resolved features id f hres n'
                      (fun hcon => hne hcon.symm)
                  · exact Or.inr ⟨b', firstBaseFor_append_some features [id] n' b' p hf',
                      by rw [hlk]; exact hl'⟩
              · intro r hrr
                rcases List.mem_append.mp hrr with hmem | hmem
                · exact expectedVph_mono features p [id] r.id _ (hr r hmem)
                · rw [List.mem_singleton] at hmem
                  subst hmem
                  show expectedVph features (p ++ [id]) id =
                    some (vphNamed (baseByType f.highway) (normName f.name))
                  rw [expectedVph]
                  simp only [hres]
                  rw [if_neg hn0, hfid, Option.map_some']
            · rw [hcl] at hl
              exact Option.noConfusion hl
          | some v =>
            rw [scanStep_hit features st id f v hres hn0 hcl]
            rcases hc (normName f.name) hn0 with ⟨hf, hl⟩ | ⟨b, hf, hl⟩
            · rw [hcl] at hl
              exact Option.noConfusion hl
            · have hv : v = vphNamed b (normName f.name) := by
                rw [hcl] at hl
                exact Option.some.inj hl
              constructor
              · intro n' hn'
                rcases hc n' hn' with ⟨hf', hl'⟩ | ⟨b', hf', hl'⟩
                · left
                  refine ⟨?_, hl'⟩
                  rw [firstBaseFor_append_none features [id] n' p hf']
                  refine firstBaseFor_singleton_miss_resolved features id f hres n' ?_
                  intro hcon
                  rw [hcon] at hf
                  rw [hf] at hf'
                  exact Option.noConfusion hf'
                · exact Or.inr ⟨b', firstBaseFor_append_some features [id] n' b' p hf', hl'⟩
              · intro r hrr
                rcases List.mem_append.mp hrr with hmem | hmem
                · exact expectedVph_mono features p [id] r.id _ (hr r hmem)
                · rw [List.mem_singleton] at hmem
                  subst hmem
                  show expectedVph features (p ++ [id]) id = some v
                  rw [expectedVph]
                  simp only [hres]
                  rw [if_neg hn0, firstBaseFor_append_some features [id] _ b p hf,
                    Option.map_some', hv]
    have hmain := ih (p ++ [id]) (scanStep features st id) key.1 key.2
    simp only [scanIds]
    simpa [List.append_assoc] using hmain

/-- C3 (amended): every resolved selected row receives
`vehiclesPerHour = max(40, (base + fluct*scale) | 0)` — JS truncation, not
rounding — where an unnamed row uses its own base with scale 0.6 keyed by
id, and a named row uses the name-keyed value seeded from the base of the
first same-named resolved segment of the selection (scale 0.5), shared by
all segments with that normalized name (`expectedVph` packages exactly
this). -/
theorem volume_formula_c3_amended (fpow : ℚ → ℚ → ℚ) (features : List Feature)
    (sel : List String) (s : ImpactSummary)
    (hs : computeImpactStats fpow (some features) sel = some s) :
    ∀ r ∈ s.rows, expectedVph features sel r.id = some r.vehiclesPerHour := by
  intro r hr
  simp only [computeImpactStats] at hs
  split at hs
  · exact Option.noConfusion hs
  · have hX := Option.some.inj hs
    rw [← hX] at hr
    obtain ⟨r0, hr0, hre⟩ := List.mem_map.mp hr
    have hC : CacheOK features [] (ScanState.mk [] 0 []).cache := by
      intro n hn
      exact Or.inl ⟨firstBaseFor_nil features n, rfl⟩
    have hR : ∀ r' ∈ (ScanState.mk [] 0 ([] : List (String × ℤ))).rows,
        expectedVph features [] r'.id = some r'.vehiclesPerHour := by
      intro r' hr'
      exact absurd hr' (List.not_mem_nil r')
    have hspec := (scanIds_spec features sel [] ⟨[], 0, []⟩ hC hR).2 r0 hr0
    rw [List.nil_append] at hspec
    rw [← hre]
    exact hspec

/-- The catalog of the C3 counterexample: one residential segment named
"c", whose fluctuation is odd, so `base + fluct * 0.5` ends in `.5`. -/
def c3feats : List Feature := [⟨"s", some ("c"), "residential", some 0⟩]

/-- C3 counterexample: for the segment named "c"
(`fluct = hash("c") % 400 - 200 = -101`), the code's `| 0` truncation of
`250 - 50.5 = 199.5` yields 199 vehicles/hour, while the claimed
`max(40, round(base + fluctuation))` yields 200. -/
theorem volume_formula_c3_counterexample :
    (computeImpactStats pow0 (some c3feats) [("s")]).map
        (fun s => s.rows.map (fun r => r.vehiclesPerHour)) = some [199] ∧
    max 40 (round ((250 : ℚ) + (-101) * 0.5)) = 200 ∧
    (199 : ℤ) < 200 := by
  refine ⟨?_, ?_, by norm_num⟩
  · have hn : normName (some ("c")) = "c" := by decide
    have hfl : fluctOf ("c") = -101 := by decide
    have hv : vphNamed 250 ("c") = 199 := by
      rw [vphNamed, hfl]
      norm_num [jsOr0, jsTruncQ]
    have hb : baseByType ("residential") = 250 := by decide
    simp [computeImpactStats, scanIds, scanStep, resolve, c3feats, List.find?,
      cacheLookup, hn, hb, hv, enrichRow]
  · rw [round_eq]
    norm_num [max_def]

/-- The summary and row of the C3 witness selection. -/
def c3Summary : ImpactSummary :=
  (computeImpactStats pow0 (some c3feats) [("s")]).getD impactFallback

/-- Its single row. -/
def c3Row : Row := c3Summary.rows.headD rowFallback

lemma c3Summary_eq : computeImpactStats pow0 (some c3feats) [("s")] = some c3Summary := rfl

lemma c3Row_mem : c3Row ∈ c3Summary.rows := by
  have h : c3Summary.rows = [c3Row] := rfl
  rw [h]
  exact List.mem_singleton_self _

/-- C3 amended witness: the characterisation applied to the concrete
one-segment selection. -/
theorem volume_formula_c3_amended_witness :
    expectedVph c3feats [("s")] c3Row.id = some c3Row.vehiclesPerHour :=
  volume_formula_c3_amended pow0 c3feats [("s")] c3Summary c3Summary_eq c3Row c3Row_mem

/-- Every cached value agrees with the selection-independent volume of
every same-named catalog feature (meaningful under `SameBase`). -/
def CacheAgrees (features : List Feature) (cache : List (String × ℤ)) : Prop :=
  ∀ n v, cacheLookup n cache = some v →
    ∀ f ∈ features, normName f.name = n → v = vphNamed (baseByType f.highway) n

lemma resolve_mem (features : List Feature) (id : String) (f : Feature)
    (hres : resolve features id = some f) : f ∈ features :=
  List.mem_of_find?_eq_some hres

lemma scanIds_pure (features : List Feature) (hB : SameBase features) (sel : List String) :
    ∀ st : ScanState, CacheAgrees features st.cache →
      (scanIds features st sel).rows = st.rows ++ sel.filterMap (pureRow0 features) ∧
      CacheAgrees features (scanIds features st sel).cache := by
  induction sel with
  | nil =>
    intro st hc
    constructor
    · simp [scanIds]
    · simpa [scanIds] using hc
  | cons id sel ih =>
    intro st hc
    cases hres : resolve features id with
    | none =>
      simp only [scanIds, scanStep_unresolved features st id hres]
      obtain ⟨hrows, hcache⟩ := ih st hc
      refine ⟨?_, hcache⟩
      rw [hrows, List.filterMap_cons]
      simp [pureRow0, hres]
    | some f =>
      have hmemf : f ∈ features := resolve_mem features id f hres
      by_cases hn0 : normName f.name = ""
      · simp only [scanIds, scanStep_unnamed features st id f hres hn0]
        obtain ⟨hrows, hcache⟩ := ih
          ⟨st.rows ++ [⟨id, f.name, f.highway, f.length_km,
              vphId (baseByType f.highway) id⟩],
            st.totalKm + f.length_km.getD 0, st.cache⟩ hc
        refine ⟨?_, hcache⟩
        rw [hrows, List.filterMap_cons]
        simp [pureRow0, hres, pureVph, hn0, List.append_assoc]
      · cases hcl : cacheLookup (normName f.name) st.cache with
        | some v =>
          have hv : v = vphNamed (baseByType f.highway) (normName f.name) :=
            hc _ v hcl f hmemf rfl
          simp only [scanIds, scanStep_hit features st id f v hres hn0 hcl]
          obtain ⟨hrows, hcache⟩ := ih
            ⟨st.rows ++ [⟨id, f.name, f.highway, f.length_km, v⟩],
              st.totalKm + f.length_km.getD 0, st.cache⟩ hc
          refine ⟨?_, hcache⟩
          rw [hrows, List.filterMap_cons]
          simp [pureRow0, hres, pureVph, hn0, hv, List.append_assoc]
        | none =>
          have hc' : CacheAgrees features
              ((normName f.name, vphNamed (baseByType f.highway) (normName f.name))
                :: st.cache) := by
            intro n v hlk g hg hgn
            by_cases hne : normName f.name = n
            · rw [cacheLookup, if_pos hne] at hlk
              have hv := (Option.some.inj hlk).symm
              rw [hv]
              have hfg : baseByType f.highway = baseByType g.highway :=
                hB f hmemf g hg hn0 (by rw [hgn, hne])
              rw [hfg, hne]
            · rw [cacheLookup_cons_ne n _ _ st.cache hne] at hlk
              exact hc n v hlk g hg hgn
          simp only [scanIds, scanStep_miss features st id f hres hn0 hcl]
          obtain ⟨hrows, hcache⟩ := ih
            ⟨st.rows ++ [⟨id, f.name, f.highway, f.length_km,
                vphNamed (baseByType f.highway) (normName f.name)⟩],
              st.totalKm + f.length_km.getD 0,
              (normName f.name, vphNamed (baseByType f.highway) (normName f.name))
                :: st.cache⟩ hc'
          refine ⟨?_, hcache⟩
          rw [hrows, List.filterMap_cons]
          simp [pureRow0, hres, pureVph, hn0, List.append_assoc]

lemma foldl_add_vph (rows : List Row0) :
    ∀ a : ℤ, rows.foldl (fun a r => a + r.vehiclesPerHour) a =
      a + (rows.map (fun r => r.vehiclesPerHour)).sum := by
  induction rows with
  | nil => intro a; simp
  | cons r rows ih =>
    intro a
    rw [List.foldl_cons, ih, List.map_cons, List.sum_cons]
    ring

lemma sumVehicles_eq_sum (rows : List Row0) :
    sumVehicles rows = (rows.map (fun r => r.vehiclesPerHour)).sum := by
  rw [sumVehicles, foldl_add_vph, zero_add]

/-- C4 (amended): `computeImpactStats` is deterministic in the selection
sequence, and when all same-named catalog segments share one base volume
(`SameBase`) it is order-independent: any two selections with the same
ids in any order give the same `areaVehicles` and, for every id, fully
identical rows (volume, share, impact score, category). Without
`SameBase` the name-keyed cache makes the result depend on insertion
order (see the counterexample). -/
theorem selection_order_c4_amended (fpow : ℚ → ℚ → ℚ) (features : List Feature)
    (sel1 sel2 : List String) (s1 s2 : ImpactSummary)
    (hB : SameBase features) (hperm : sel1.Perm sel2)
    (h1 : computeImpactStats fpow (some features) sel1 = some s1)
    (h2 : computeImpactStats fpow (some features) sel2 = some s2) :
    s1.areaVehicles = s2.areaVehicles ∧
    ∀ r1 ∈ s1.rows, ∀ r2 ∈ s2.rows, r1.id = r2.id → r1 = r2 := by
  have hCA : CacheAgrees features (ScanState.mk [] 0 []).cache := by
    intro n v hlk
    exact Option.noConfusion hlk
  have hp1 := scanIds_pure features hB sel1 ⟨[], 0, []⟩ hCA
  have hp2 := scanIds_pure features hB sel2 ⟨[], 0, []⟩ hCA
  rw [List.nil_append] at hp1 hp2
  have hpermRows : (sel1.filterMap (pureRow0 features)).Perm
      (sel2.filterMap (pureRow0 features)) := hperm.filterMap _
  have hsum : sumVehicles (scanIds features ⟨[], 0, []⟩ sel1).rows =
      sumVehicles (scanIds features ⟨[], 0, []⟩ sel2).rows := by
    rw [sumVehicles_eq_sum, sumVehicles_eq_sum, hp1.1, hp2.1]
    exact (hpermRows.map _).sum_eq
  simp only [computeImpactStats] at h1 h2
  split at h1
  · exact Option.noConfusion h1
  · split at h2
    · exact Option.noConfusion h2
    · have e1 := Option.some.inj h1
      have e2 := Option.some.inj h2
      rw [← e1, ← e2]
      constructor
      · show round ((sumVehicles (scanIds features ⟨[], 0, []⟩ sel1).rows : ℚ)
            * 1.35 + 500) = round ((sumVehicles (scanIds features ⟨[], 0, []⟩ sel2).rows : ℚ)
            * 1.35 + 500)
        rw [hsum]
      · intro r1 hr1 r2 hr2 hid
        have hA : ((sumVehicles (scanIds features ⟨[], 0, []⟩ sel1).rows : ℤ) : ℚ)
            * 1.35 + 500 = ((sumVehicles (scanIds features ⟨[], 0, []⟩ sel2).rows : ℤ) : ℚ)
            * 1.35 + 500 := by rw [hsum]
        obtain ⟨r01, hr01, hre1⟩ := List.mem_map.mp hr1
        obtain ⟨r02, hr02, hre2⟩ := List.mem_map.mp hr2
        rw [hp1.1] at hr01
        rw [hp2.1] at hr02
        obtain ⟨id1, hid1, hpr1⟩ := List.mem_filterMap.mp hr01
        obtain ⟨id2, hid2, hpr2⟩ := List.mem_filterMap.mp hr02
        obtain ⟨f1, hf1, hfe1⟩ := Option.map_eq_some'.mp hpr1
        obtain ⟨f2, hf2, hfe2⟩ := Option.map_eq_some'.mp hpr2
        have hid1' : r01.id = id1 := by rw [← hfe1]
        have hid2' : r02.id = id2 := by rw [← hfe2]
        have hidq : id1 = id2 := by
          rw [← hid1', ← hid2']
          rw [← hre1, ← hre2] at hid
          exact hid
        have hfeq : f1 = f2 := by
          rw [hidq] at hf1
          rw [hf1] at hf2
          exact Option.some.inj hf2
        have hr0eq : r01 = r02 := by
          rw [← hfe1, ← hfe2, hidq, hfeq]
        rw [← hre1, ← hre2, hr0eq]
        show enrichRow fpow _ r02 = enrichRow fpow _ r02
        rw [hA]

/-- The C4 counterexample catalog: two segments sharing normalized name
"x" with different road classes (motorway base 1800, service base 120). -/
def cexFeats : List Feature :=
  [⟨"1", some ("x"), "motorway", some 1⟩, ⟨"2", some ("x"), "service", some 1⟩]

/-- C4 counterexample: the same two ids selected in the two insertion
orders give different volumes for the same id — [1760, 1760] versus
[80, 80] — because the name-keyed cache stores the first-processed
segment's full volume. -/
theorem selection_order_c4_counterexample :
    (computeImpactStats pow0 (some cexFeats) ["1", "2"]).map
        (fun s => s.rows.map (fun r => (r.id, r.vehiclesPerHour))) =
      some [("1", 1760), ("2", 1760)] ∧
    (computeImpactStats pow0 (some cexFeats) ["2", "1"]).map
        (fun s => s.rows.map (fun r => (r.id, r.vehiclesPerHour))) =
      some [("2", 80), ("1", 80)] ∧
    (80 : ℤ) < 1760 := by
  have hn : normName (some ("x")) = "x" := by decide
  have hfl : fluctOf ("x") = -80 := by decide
  have hv1 : vphNamed 1800 ("x") = 1760 := by
    rw [vphNamed, hfl]
    norm_num [jsOr0, jsTruncQ]
  have hv2 : vphNamed 120 ("x") = 80 := by
    rw [vphNamed, hfl]
    norm_num [jsOr0, jsTruncQ]
  have hb1 : baseByType ("motorway") = 1800 := by decide
  have hb2 : baseByType ("service") = 120 := by decide
  refine ⟨?_, ?_, by norm_num⟩ <;>
    simp [computeImpactStats, scanIds, scanStep, resolve, cexFeats, List.find?,
      cacheLookup, hn, hb1, hb2, hv1, hv2, enrichRow]

/-- The C4 witness catalog: one named motorway and one unnamed service
road — all (one) same-named segments trivially share a base. -/
def c4witFeats : List Feature :=
  [⟨"1", some ("x"), "motorway", some 1⟩, ⟨"2", none, "service", some 2⟩]

/-- Summary for insertion order 1, 2. -/
def c4Sum1 : ImpactSummary :=
  (computeImpactStats pow0 (some c4witFeats) ["1", "2"]).getD impactFallback

/-- Summary for insertion order 2, 1. -/
def c4Sum2 : ImpactSummary :=
  (computeImpactStats pow0 (some c4witFeats) ["2", "1"]).getD impactFallback

lemma c4Sum1_eq : computeImpactStats pow0 (some c4witFeats) ["1", "2"] = some c4Sum1 := rfl

lemma c4Sum2_eq : computeImpactStats pow0 (some c4witFeats) ["2", "1"] = some c4Sum2 := rfl

lemma c4_sameBase : SameBase c4witFeats := by
  unfold SameBase
  decide

lemma c4_perm : (["1", "2"] : List String).Perm ["2", "1"] := by decide

/-- C4 amended witness: the two insertion orders of the same selection
agree on `areaVehicles` for the SameBase catalog. -/
theorem selection_order_c4_amended_witness : c4Sum1.areaVehicles = c4Sum2.areaVehicles :=
  (selection_order_c4_amended pow0 c4witFeats ["1", "2"] ["2", "1"] c4Sum1 c4Sum2
    c4_sameBase c4_perm c4Sum1_eq c4Sum2_eq).1
